import Mathlib

/-!
Verification of the `labelCloud` point-cloud model
(`src/labelCloud/model/point_cloud.py`).

The Python module is embedded shallowly:

* numpy float arrays become lists of real-valued triples;
* the configuration store becomes an explicit `Config` record threaded
  through the constructor;
* fallible numpy operations (reductions over empty arrays, fancy indexing
  with out-of-range indices, broadcasting failures, array truthiness)
  become `Except String` results;
* the mutable `PointCloud` object becomes a state record `PCState`, its
  setters become state transformers, and sequences of user interactions
  become lists of `Mutation`s folded over the state.

Two helpers of the repository (`get_distinct_colors` and
`colorize_points_with_height` from `utils/color.py`) are not part of the
sources; they are modelled from the spec and marked as such.
-/

namespace LabelCloud

noncomputable section

/-- A 3D point or vector with real coordinates (a row of a numpy `(N, 3)`
float array). -/
abbrev Point3D : Type := ℝ × ℝ × ℝ

/-- An RGB color triple (a row of a numpy `(N, 3)` color array). -/
abbrev Color : Type := ℝ × ℝ × ℝ

/-- Componentwise addition, `np.add` on 3-vectors. -/
def vadd (a b : Point3D) : Point3D :=
  (a.1 + b.1, a.2.1 + b.2.1, a.2.2 + b.2.2)

/-- Componentwise subtraction, `maxs - mins` on 3-vectors. -/
def vsub (a b : Point3D) : Point3D :=
  (a.1 - b.1, a.2.1 - b.2.1, a.2.2 - b.2.2)

/-- Componentwise negation of a 3-vector. -/
def vneg (a : Point3D) : Point3D :=
  (-a.1, -a.2.1, -a.2.2)

/-- Componentwise minimum of two 3-vectors. -/
def vmin (a b : Point3D) : Point3D :=
  (min a.1 b.1, min a.2.1 b.2.1, min a.2.2 b.2.2)

/-- Componentwise maximum of two 3-vectors. -/
def vmax (a b : Point3D) : Point3D :=
  (max a.1 b.1, max a.2.1 b.2.1, max a.2.2 b.2.2)

/-- `array * scalar`: scale each component of a color row by a scalar,
with the array on the left as in the Python source. -/
def colScale (c : Color) (r : ℝ) : Color :=
  (c.1 * r, c.2.1 * r, c.2.2 * r)

/-- `scalar * color` as written in the spec's blend formula. -/
def smulColor (r : ℝ) (c : Color) : Color :=
  (r * c.1, r * c.2.1, r * c.2.2)

/-- `np.amin(points, axis=0)` for a non-empty list; the empty case is
guarded by the constructor (numpy raises there). -/
def amin : List Point3D → Point3D
  | [] => (0, 0, 0)
  | p :: ps => ps.foldl vmin p

/-- `np.amax(points, axis=0)` for a non-empty list. -/
def amax : List Point3D → Point3D
  | [] => (0, 0, 0)
  | p :: ps => ps.foldl vmax p

/-- `np.linalg.norm` of a 3-vector: the Euclidean norm. -/
def euclideanNorm (v : Point3D) : ℝ :=
  Real.sqrt (v.1 ^ 2 + v.2.1 ^ 2 + v.2.2 ^ 2)

/-- `tuple(np.sum(points[:, i]) / len(points) for i in range(3))`:
the per-axis centroid computed in `PointCloud.__init__` (line 66). -/
def centroid (points : List Point3D) : Point3D :=
  ((points.map fun p => p.1).sum / points.length,
   (points.map fun p => p.2.1).sum / points.length,
   (points.map fun p => p.2.2).sum / points.length)

/-- `calculate_init_translation(center, mins, maxs)` (lines 23-36); the
far-plane configuration value read inside the function becomes the
explicit argument `far_plane`. -/
def calculate_init_translation (center mins maxs : Point3D) (far_plane : ℝ) :
    Point3D :=
  let zoom : ℝ := min (euclideanNorm (vsub maxs mins)) (far_plane * 0.9)
  vneg (vadd center (0, 0, zoom))

/-- The spec's formula for the initial placement, written from §4.1 of the
spec: `diag = euclidean_norm(maxs - mins)`, `zoom = min(diag, far_plane * 0.9)`,
result `-(center + (0,0,zoom))`. -/
def initial_translation_spec (center mins maxs : Point3D) (far_plane : ℝ) :
    Point3D :=
  let diag : ℝ := euclideanNorm (vsub maxs mins)
  let zoom : ℝ := min diag (far_plane * 0.9)
  vneg (vadd center (0, 0, zoom))

/-- Modelled from the spec: `get_distinct_colors` lives in
`utils/color.py`, which is not among the sources.  Per the spec it
produces "one RGB color per class index, generated to be visually
distinct; length = number of classes". -/
def get_distinct_colors (n : ℕ) : List Color :=
  (List.range n).map fun i => ((i : ℝ) / n, 1 - (i : ℝ) / n, 1 / 2)

/-- Modelled from the spec: `colorize_points_with_height` lives in
`utils/color.py`, which is not among the sources.  Per the spec it maps
"each point's height (third coordinate) through a continuous color ramp
spanning the cloud's min/max height", one color per point. -/
def colorize_points_with_height (points : List Point3D) (zmin zmax : ℝ) :
    List Color :=
  points.map fun p =>
    ((p.2.2 - zmin) / (zmax - zmin), 1 - (p.2.2 - zmin) / (zmax - zmin), 1 / 2)

/-- The configuration options read by the module, as an explicit record
(`config.getfloat`/`getboolean`/`getlist` calls in the source). -/
structure Config where
  far_plane : ℝ
  colorless_colorize : Bool
  colorless_color : Color
  label_color_mix_ratio : ℝ
  segmentation : Bool

/-- The state of a `PointCloud` object after `__init__` has run: raw
arrays, label data, derived geometry, and the live pose. -/
structure PCState where
  points : List Point3D
  colors : Option (List Color)
  label_definition : List (String × ℤ)
  labels : Option (List ℤ)
  label_color_map : Option (List Color)
  mix_ratio : ℝ
  center : Point3D
  pcd_mins : Point3D
  pcd_maxs : Point3D
  init_translation : Point3D
  init_rotation : Point3D
  trans_x : ℝ
  trans_y : ℝ
  trans_z : ℝ
  rot_x : ℝ
  rot_y : ℝ
  rot_z : ℝ

/-- Line 56 of `__init__`: `colors if type(colors) == np.ndarray and
len(colors) > 0 else None` — a missing or empty colors argument is
discarded. -/
def keptColors (colors : Option (List Color)) : Option (List Color) :=
  match colors with
  | some cs => if 0 < cs.length then some cs else none
  | none => none

/-- The colors stored by `__init__`: a kept non-empty colors argument is
stored unchanged, and lines 78-96 fill a colorless cloud either by the
height ramp over `pcd_mins[2]`/`pcd_maxs[2]` or by broadcasting the
configured flat color over the points. -/
def mkColors (cfg : Config) (points : List Point3D)
    (colors : Option (List Color)) : List Color :=
  match keptColors colors with
  | some cs => cs
  | none =>
    if cfg.colorless_colorize then
      colorize_points_with_height points (amin points).2.2 (amax points).2.2
    else
      points.map fun _ => cfg.colorless_color

/-- `PointCloud.__init__` (lines 42-103).  The only failure of the body is
`np.amin`/`np.amax` over an empty point array (numpy raises); no shape
validation of any kind is performed.  GPU buffer creation is out of scope
(`write_buffer=False` path). -/
def mkPointCloud (cfg : Config) (points : List Point3D)
    (label_definition : List (String × ℤ)) (colors : Option (List Color))
    (segmentation_labels : Option (List ℤ))
    (init_translation : Option Point3D) (init_rotation : Option Point3D) :
    Except String PCState :=
  if points.isEmpty then
    .error "ValueError: zero-size array to reduction operation minimum"
  else
    let labels : Option (List ℤ) :=
      if cfg.segmentation then segmentation_labels else none
    let lcm : Option (List Color) :=
      if cfg.segmentation then some (get_distinct_colors label_definition.length)
      else none
    let center := centroid points
    let mins := amin points
    let maxs := amax points
    let initT : Point3D :=
      match init_translation with
      | some t => t
      | none => calculate_init_translation center mins maxs cfg.far_plane
    let initR : Point3D :=
      match init_rotation with
      | some r => r
      | none => (0, 0, 0)
    .ok
      { points := points
        colors := some (mkColors cfg points colors)
        label_definition := label_definition
        labels := labels
        label_color_map := lcm
        mix_ratio := cfg.label_color_mix_ratio
        center := center
        pcd_mins := mins
        pcd_maxs := maxs
        init_translation := initT
        init_rotation := initR
        trans_x := initT.1
        trans_y := initT.2.1
        trans_z := initT.2.2
        rot_x := initR.1
        rot_y := initR.2.1
        rot_z := initR.2.2 }

/-- Python float `x % m`: floor-mod, `x - m * floor(x / m)`. -/
def fmod (x m : ℝ) : ℝ :=
  x - m * (⌊x / m⌋ : ℤ)

/-- `PointCloud.colorless` (lines 187-189). -/
def PCState.colorless (pc : PCState) : Bool :=
  pc.colors.isNone

/-- `PointCloud.get_no_of_points` (lines 215-216). -/
def PCState.get_no_of_points (pc : PCState) : ℕ :=
  pc.points.length

/-- `PointCloud.get_rotations` (lines 221-222). -/
def PCState.get_rotations (pc : PCState) : Point3D :=
  (pc.rot_x, pc.rot_y, pc.rot_z)

/-- `PointCloud.get_translation` (lines 224-225). -/
def PCState.get_translation (pc : PCState) : Point3D :=
  (pc.trans_x, pc.trans_y, pc.trans_z)

/-- `PointCloud.set_rot_x` (lines 233-234). -/
def PCState.set_rot_x (pc : PCState) (angle : ℝ) : PCState :=
  { pc with rot_x := fmod angle 360 }

/-- `PointCloud.set_rot_y` (lines 236-237). -/
def PCState.set_rot_y (pc : PCState) (angle : ℝ) : PCState :=
  { pc with rot_y := fmod angle 360 }

/-- `PointCloud.set_rot_z` (lines 239-240). -/
def PCState.set_rot_z (pc : PCState) (angle : ℝ) : PCState :=
  { pc with rot_z := fmod angle 360 }

/-- `PointCloud.set_rotations` (lines 242-245). -/
def PCState.set_rotations (pc : PCState) (x y z : ℝ) : PCState :=
  { pc with rot_x := fmod x 360, rot_y := fmod y 360, rot_z := fmod z 360 }

/-- `PointCloud.set_trans_x` (lines 247-248). -/
def PCState.set_trans_x (pc : PCState) (val : ℝ) : PCState :=
  { pc with trans_x := val }

/-- `PointCloud.set_trans_y` (lines 250-251). -/
def PCState.set_trans_y (pc : PCState) (val : ℝ) : PCState :=
  { pc with trans_y := val }

/-- `PointCloud.set_trans_z` (lines 253-254). -/
def PCState.set_trans_z (pc : PCState) (val : ℝ) : PCState :=
  { pc with trans_z := val }

/-- `PointCloud.set_translations` (lines 256-259). -/
def PCState.set_translations (pc : PCState) (x y z : ℝ) : PCState :=
  { pc with trans_x := x, trans_y := y, trans_z := z }

/-- `PointCloud.reset_perspective` (lines 302-304), embedded exactly as
written: the translation fields are assigned from `init_rotation`. -/
def PCState.reset_perspective (pc : PCState) : PCState :=
  { pc with
    trans_x := pc.init_rotation.1
    trans_y := pc.init_rotation.2.1
    trans_z := pc.init_rotation.2.2
    rot_x := pc.init_rotation.1
    rot_y := pc.init_rotation.2.1
    rot_z := pc.init_rotation.2.2 }

/-- One call to a translation/rotation setter or to `reset_perspective`. -/
inductive Mutation where
  | setRotX : ℝ → Mutation
  | setRotY : ℝ → Mutation
  | setRotZ : ℝ → Mutation
  | setRots : ℝ → ℝ → ℝ → Mutation
  | setTransX : ℝ → Mutation
  | setTransY : ℝ → Mutation
  | setTransZ : ℝ → Mutation
  | setTranss : ℝ → ℝ → ℝ → Mutation
  | reset : Mutation

/-- Apply one mutation to the state. -/
def applyMutation (pc : PCState) : Mutation → PCState
  | .setRotX a => pc.set_rot_x a
  | .setRotY a => pc.set_rot_y a
  | .setRotZ a => pc.set_rot_z a
  | .setRots x y z => pc.set_rotations x y z
  | .setTransX v => pc.set_trans_x v
  | .setTransY v => pc.set_trans_y v
  | .setTransZ v => pc.set_trans_z v
  | .setTranss x y z => pc.set_translations x y z
  | .reset => pc.reset_perspective

/-- Apply a sequence of setter/reset calls, first call first. -/
def applyMutations (pc : PCState) (ms : List Mutation) : PCState :=
  ms.foldl applyMutation pc

/-- numpy fancy indexing into an axis of length `n`: indices in `[0, n)`
are taken as-is, indices in `[-n, 0)` wrap around, anything else raises
`IndexError`. -/
def npIndex (n : ℕ) (i : ℤ) : Option ℕ :=
  if 0 ≤ i ∧ i < (n : ℤ) then some i.toNat
  else if -(n : ℤ) ≤ i ∧ i < 0 then some (i + n).toNat
  else none

/-- `np.eye(n)[labels]`: resolve every label to the row index it selects,
raising `IndexError` on the first label outside `[-n, n)`. -/
def npEyeIndex (n : ℕ) : List ℤ → Except String (List ℕ)
  | [] => .ok []
  | v :: vs =>
    match npIndex n v with
    | none => .error "IndexError: index is out of bounds for axis 0"
    | some k => (npEyeIndex n vs).map fun ks => k :: ks

/-- numpy broadcast addition of two `(L, 3)` / `(N, 3)` arrays: equal
lengths add elementwise, a length-1 operand broadcasts, anything else
raises `ValueError`. -/
def npBroadcastAdd (xs ys : List Color) : Except String (List Color) :=
  if xs.length = ys.length then .ok (List.zipWith vadd xs ys)
  else if xs.length = 1 then .ok (ys.map fun y => vadd (xs.getD 0 (0, 0, 0)) y)
  else if ys.length = 1 then .ok (xs.map fun x => vadd x (ys.getD 0 (0, 0, 0)))
  else .error "ValueError: operands could not be broadcast together"

/-- `np.dot(label_one_hot, label_color_map)`: the one-hot row selected by
index `k` picks palette row `k`. -/
def pickRows (pal : List Color) (ks : List ℕ) : List Color :=
  ks.map fun k => pal.getD k (0, 0, 0)

/-- The body of `label_colors` for present labels, mirroring the
evaluation order of lines 129-131: `np.eye(n)[labels]` raises `IndexError`
first, `np.dot` raises `ValueError` when the palette length differs from
the class count, multiplying `None` raises `TypeError`, and the final
addition broadcasts. -/
def blendImpl (n : ℕ) (palOpt : Option (List Color)) (mix : ℝ)
    (colorsOpt : Option (List Color)) (ls : List ℤ) :
    Except String (List Color) :=
  (npEyeIndex n ls).bind fun ks =>
    match palOpt with
    | none => .error "TypeError: unsupported operand type"
    | some pal =>
      if pal.length = n then
        match colorsOpt with
        | none => .error "TypeError: unsupported operand type"
        | some cs =>
          npBroadcastAdd ((pickRows pal ks).map fun r => colScale r mix)
            (cs.map fun c => colScale c (1 - mix))
      else .error "ValueError: shapes not aligned"

/-- `PointCloud.label_colors` (lines 125-133): blend the label color map
into the base colors (`colors * mix_ratio + self.colors * (1 - mix_ratio)`),
or return the base colors unchanged when labels are absent. -/
def PCState.label_colors (pc : PCState) : Except String (Option (List Color)) :=
  match pc.labels with
  | none => .ok pc.colors
  | some ls =>
    (blendImpl pc.label_definition.length pc.label_color_map pc.mix_ratio
      pc.colors ls).map some

/-- The spec's blend formula (§4.2):
`blended[i] = mix_ratio * label_color_map[labels[i]] + (1 - mix_ratio) * base_colors[i]`. -/
def blendSpec (mix : ℝ) (pal : List Color) (ls : List ℤ) (cs : List Color) :
    List Color :=
  List.zipWith
    (fun v c => vadd (smulColor mix (pal.getD v.toNat (0, 0, 0)))
      (smulColor (1 - mix) c)) ls cs

/-- `PointCloud.int2label` (lines 196-199) as a lookup function: the dict
comprehension `{ind: label for label, ind in label_definition.items()}`,
where a later entry overwrites an earlier one with the same index. -/
def int2label (ldef : List (String × ℤ)) (i : ℤ) : Option String :=
  (ldef.reverse.find? fun p => p.2 == i).map Prod.fst

/-- Python dict assignment `d[k] = v`: overwrite the entry if the key is
present, append it otherwise. -/
def dictSet (d : List (String × ℕ)) (k : String) (v : ℕ) : List (String × ℕ) :=
  if d.any fun p => p.1 == k then d.map fun p => if p.1 == k then (p.1, v) else p
  else d ++ [(k, v)]

/-- `np.unique(labels, return_counts=True)`: the distinct label values in
ascending order, each with its number of occurrences. -/
def npUnique (ls : List ℤ) : List (ℤ × ℕ) :=
  (ls.dedup.insertionSort (· ≤ ·)).map fun v => (v, ls.count v)

/-- The update loop of `label_counts`:
`for ind, count in zip(indexes, counts): counter[int2label[ind]] = count`,
where `int2label[ind]` raises `KeyError` for an index with no name. -/
def applyCounts (counter : List (String × ℕ)) (ldef : List (String × ℤ)) :
    List (ℤ × ℕ) → Except String (List (String × ℕ))
  | [] => .ok counter
  | u :: rest =>
    match int2label ldef u.1 with
    | none => .error "KeyError"
    | some name => applyCounts (dictSet counter name u.2) ldef rest

/-- `PointCloud.label_counts` (lines 201-212): `None` unless labels are
present and the label definition is non-empty; otherwise a counter over
all class names, updated from `np.unique` of the labels. -/
def label_counts_impl (labels : Option (List ℤ))
    (ldef : List (String × ℤ)) : Except String (Option (List (String × ℕ))) :=
  match labels with
  | some ls =>
    if ldef.isEmpty then .ok none
    else (applyCounts (ldef.map fun p => (p.1, 0)) ldef (npUnique ls)).map some
  | none => .ok none

/-- `PointCloud.label_counts` on the state record. -/
def PCState.label_counts (pc : PCState) :
    Except String (Option (List (String × ℕ))) :=
  label_counts_impl pc.labels pc.label_definition

/-- The numpy error raised when a multi-element array is used as a
boolean. -/
def ambiguousTruthMsg : String :=
  "ValueError: The truth value of an array with more than one element is ambiguous."

/-- `PointCloud.get_no_of_colors` (lines 218-219):
`len(self.colors) if self.colors else 0`.  An `(N, 3)` numpy array has
size `3 * N`; using it as a boolean raises `ValueError` whenever its size
exceeds one, and a size-0 array is falsy, so the `len` branch is
unreachable for color arrays. -/
def PCState.get_no_of_colors (pc : PCState) : Except String ℕ :=
  match pc.colors with
  | none => .ok 0
  | some cs =>
    if 1 < 3 * cs.length then .error ambiguousTruthMsg
    else .ok 0

/-- A freshly constructed state with the given initial pose: the live pose
fields are copied from the initial pose exactly as `__init__` does
(lines 74-76). -/
def freshPose (it ir : Point3D) : PCState :=
  { points := [(0, 0, 0)]
    colors := some [(1, 0, 0)]
    label_definition := []
    labels := none
    label_color_map := none
    mix_ratio := 0
    center := (0, 0, 0)
    pcd_mins := (0, 0, 0)
    pcd_maxs := (0, 0, 0)
    init_translation := it
    init_rotation := ir
    trans_x := it.1
    trans_y := it.2.1
    trans_z := it.2.2
    rot_x := ir.1
    rot_y := ir.2.1
    rot_z := ir.2.2 }

/-- A stored rotation component lies in the normalized interval `[0, 360)`. -/
def inRange360 (r : ℝ) : Prop :=
  0 ≤ r ∧ r < 360

/-- All three live rotation components of the state are normalized. -/
def rotNormalized (pc : PCState) : Prop :=
  inRange360 pc.rot_x ∧ inRange360 pc.rot_y ∧ inRange360 pc.rot_z

/-- All three components of a rotation triple are normalized. -/
def tripleInRange360 (p : Point3D) : Prop :=
  inRange360 p.1 ∧ inRange360 p.2.1 ∧ inRange360 p.2.2

/-- A plain configuration used for concrete instances. -/
def cfgDefault : Config :=
  { far_plane := 100
    colorless_colorize := false
    colorless_color := (1 / 2, 1 / 2, 1 / 2)
    label_color_mix_ratio := 1 / 2
    segmentation := false }

/-- A segmentation-mode state with the given label data and pose zeroed,
as produced by a load with `SEGMENTATION` enabled. -/
def segState (ldef : List (String × ℤ)) (ls : List ℤ) (cs pal : List Color)
    (mix : ℝ) : PCState :=
  { points := cs.map fun _ => (0, 0, 0)
    colors := some cs
    label_definition := ldef
    labels := some ls
    label_color_map := some pal
    mix_ratio := mix
    center := (0, 0, 0)
    pcd_mins := (0, 0, 0)
    pcd_maxs := (0, 0, 0)
    init_translation := (0, 0, 0)
    init_rotation := (0, 0, 0)
    trans_x := 0
    trans_y := 0
    trans_z := 0
    rot_x := 0
    rot_y := 0
    rot_z := 0 }

/-- The result of folding a list of `(index, count)` updates over an
initial count function: the semantic content of the `label_counts` update
loop. -/
def updList (f : ℤ → ℕ) : List (ℤ × ℕ) → ℤ → ℕ
  | [], i => f i
  | u :: rest, i => updList (fun j => if j = u.1 then u.2 else f j) rest i

theorem fmod_eq_mul_fract (x m : ℝ) (hm : m ≠ 0) :
    fmod x m = m * Int.fract (x / m) := by
  unfold fmod Int.fract
  rw [mul_sub]
  congr 1
  field_simp

theorem fmod_bounds (x m : ℝ) (hm : 0 < m) : 0 ≤ fmod x m ∧ fmod x m < m := by
  rw [fmod_eq_mul_fract x m (ne_of_gt hm)]
  constructor
  · exact mul_nonneg hm.le (Int.fract_nonneg _)
  · calc m * Int.fract (x / m) < m * 1 :=
          mul_lt_mul_of_pos_left (Int.fract_lt_one _) hm
      _ = m := mul_one m

theorem fmod_neg_thirty : fmod (-30) 360 = 330 := by
  unfold fmod
  have h : ⌊(-30 : ℝ) / 360⌋ = -1 := by
    rw [Int.floor_eq_iff]
    norm_num
  rw [h]
  norm_num

theorem fmod_725 : fmod 725 360 = 5 := by
  unfold fmod
  have h : ⌊(725 : ℝ) / 360⌋ = 2 := by
    rw [Int.floor_eq_iff]
    norm_num
  rw [h]
  norm_num

theorem applyMutation_init_rotation (pc : PCState) (m : Mutation) :
    (applyMutation pc m).init_rotation = pc.init_rotation := by
  cases m <;> rfl

theorem applyMutation_normalized (pc : PCState) (m : Mutation)
    (h : rotNormalized pc) (h2 : tripleInRange360 pc.init_rotation) :
    rotNormalized (applyMutation pc m) := by
  obtain ⟨hx, hy, hz⟩ := h
  have h360 : (0 : ℝ) < 360 := by norm_num
  cases m with
  | setRotX a => exact ⟨fmod_bounds a 360 h360, hy, hz⟩
  | setRotY a => exact ⟨hx, fmod_bounds a 360 h360, hz⟩
  | setRotZ a => exact ⟨hx, hy, fmod_bounds a 360 h360⟩
  | setRots x y z =>
      exact ⟨fmod_bounds x 360 h360, fmod_bounds y 360 h360, fmod_bounds z 360 h360⟩
  | setTransX v => exact ⟨hx, hy, hz⟩
  | setTransY v => exact ⟨hx, hy, hz⟩
  | setTransZ v => exact ⟨hx, hy, hz⟩
  | setTranss x y z => exact ⟨hx, hy, hz⟩
  | reset => exact h2

theorem applyMutations_normalized (ms : List Mutation) (pc : PCState)
    (h : rotNormalized pc) (h2 : tripleInRange360 pc.init_rotation) :
    rotNormalized (applyMutations pc ms) := by
  induction ms generalizing pc with
  | nil => exact h
  | cons m rest ih =>
      have hstep := applyMutation_normalized pc m h h2
      have hinit : tripleInRange360 (applyMutation pc m).init_rotation := by
        rw [applyMutation_init_rotation]
        exact h2
      simpa [applyMutations, List.foldl] using
        ih (applyMutation pc m) hstep hinit

/-- C1: the claim says `reset_perspective` restores the live pose to the
pose recorded at load time.  The source (line 303) instead assigns
`init_rotation` to the translation fields.  On a cloud loaded with
`init_translation = (1,2,3)` and `init_rotation = (0,0,0)`, after
`set_translations(9,9,9); set_rotations(45,45,45); reset_perspective()`
the translation is `(0,0,0)`, not the recorded `(1,2,3)`; the rotation is
restored correctly.  This evaluates the code at the failing input. -/
theorem C1_reset_perspective_bug :
    (applyMutations (freshPose (1, 2, 3) (0, 0, 0))
        [.setTranss 9 9 9, .setRots 45 45 45, .reset]).get_translation =
      (0, 0, 0) ∧
    (freshPose (1, 2, 3) (0, 0, 0)).init_translation = (1, 2, 3) ∧
    (applyMutations (freshPose (1, 2, 3) (0, 0, 0))
        [.setTranss 9 9 9, .setRots 45 45 45, .reset]).get_translation ≠
      (freshPose (1, 2, 3) (0, 0, 0)).init_translation ∧
    (applyMutations (freshPose (1, 2, 3) (0, 0, 0))
        [.setTranss 9 9 9, .setRots 45 45 45, .reset]).get_rotations =
      (freshPose (1, 2, 3) (0, 0, 0)).init_rotation := by
  refine ⟨rfl, rfl, ?_, rfl⟩
  intro hcontra
  rw [show (applyMutations (freshPose (1, 2, 3) (0, 0, 0))
      [.setTranss 9 9 9, .setRots 45 45 45, .reset]).get_translation =
      ((0 : ℝ), (0 : ℝ), (0 : ℝ)) from rfl,
    show (freshPose (1, 2, 3) (0, 0, 0)).init_translation =
      ((1 : ℝ), (2 : ℝ), (3 : ℝ)) from rfl] at hcontra
  have h0 : (0 : ℝ) = 1 := congrArg Prod.fst hcontra
  norm_num at h0

/-- C4 is refuted as stated: the constructor (line 76) and
`reset_perspective` (line 304) copy `init_rotation` into the live rotation
without any `% 360`.  A cloud loaded with `init_rotation = (400, 0, 0)`
has rotation component 400 — outside `[0, 360)` — after the mutation
sequence `set_rotations(10, 20, 30); reset_perspective()`. -/
theorem C4_counterexample :
    (applyMutations (freshPose (0, 0, 0) (400, 0, 0))
        [.setRots 10 20 30, .reset]).rot_x = 400 ∧
    ¬ (applyMutations (freshPose (0, 0, 0) (400, 0, 0))
        [.setRots 10 20 30, .reset]).rot_x < 360 := by
  refine ⟨rfl, ?_⟩
  show ¬ (400 : ℝ) < 360
  norm_num

/-- C4 (amended): every rotation setter stores its input reduced by
floor-mod 360 — so -30 stores 330 and 725 stores 5 — and the stored value
always lies in `[0, 360)`; after any sequence of mutations every stored
rotation component lies in `[0, 360)` provided the rotation recorded at
load time is itself normalized (the constructor and `reset_perspective`
copy `init_rotation` verbatim, which is what the counterexample
exploits). -/
theorem C4_rotation_normalization (pc : PCState) (a x y z : ℝ)
    (ms : List Mutation) (h : rotNormalized pc)
    (h2 : tripleInRange360 pc.init_rotation) :
    ((pc.set_rot_x a).rot_x = fmod a 360 ∧
     (pc.set_rot_y a).rot_y = fmod a 360 ∧
     (pc.set_rot_z a).rot_z = fmod a 360 ∧
     (pc.set_rotations x y z).rot_x = fmod x 360 ∧
     (pc.set_rotations x y z).rot_y = fmod y 360 ∧
     (pc.set_rotations x y z).rot_z = fmod z 360) ∧
    (0 ≤ fmod a 360 ∧ fmod a 360 < 360) ∧
    fmod (-30) 360 = 330 ∧ fmod 725 360 = 5 ∧
    rotNormalized (applyMutations pc ms) :=
  ⟨⟨rfl, rfl, rfl, rfl, rfl, rfl⟩, fmod_bounds a 360 (by norm_num),
    fmod_neg_thirty, fmod_725, applyMutations_normalized ms pc h h2⟩

/-- Witness for C4 (amended) at a concrete state and mutation sequence. -/
theorem C4_witness :
    rotNormalized (freshPose (0, 0, 0) (0, 0, 0)) ∧
    fmod (-30) 360 = 330 ∧
    rotNormalized (applyMutations (freshPose (0, 0, 0) (0, 0, 0))
      [.setRots (-30) 725 90, .reset]) := by
  have h360 : (0 : ℝ) < 360 := by norm_num
  have h : rotNormalized (freshPose (0, 0, 0) (0, 0, 0)) :=
    ⟨⟨le_refl 0, h360⟩, ⟨le_refl 0, h360⟩, ⟨le_refl 0, h360⟩⟩
  have h2 : tripleInRange360 (freshPose (0, 0, 0) (0, 0, 0)).init_rotation :=
    ⟨⟨le_refl 0, h360⟩, ⟨le_refl 0, h360⟩, ⟨le_refl 0, h360⟩⟩
  exact ⟨h,
    (C4_rotation_normalization (freshPose (0, 0, 0) (0, 0, 0)) 0 0 0 0
      [.setRots (-30) 725 90, .reset] h h2).2.2.1,
    (C4_rotation_normalization (freshPose (0, 0, 0) (0, 0, 0)) 0 0 0 0
      [.setRots (-30) 725 90, .reset] h h2).2.2.2.2⟩

/-- C5 is refuted as stated: the z-magnitude bound does not hold for the
result of `calculate_init_translation`, because the z-component also
carries the (unbounded) cloud-center z.  With center (0,0,100), extents
(0,0,0)-(1000,0,0) and far_plane 10, the zoom clamps to 9 but the result
is (0,0,-109), whose z-magnitude 109 exceeds far_plane * 0.9 = 9. -/
theorem C5_counterexample :
    calculate_init_translation (0, 0, 100) (0, 0, 0) (1000, 0, 0) 10 =
      (0, 0, -109) ∧
    ¬ |(calculate_init_translation (0, 0, 100) (0, 0, 0) (1000, 0, 0) 10).2.2| ≤
        10 * 0.9 := by
  have hs : Real.sqrt (((1000 : ℝ) - 0) ^ 2 + (0 - 0) ^ 2 + (0 - 0) ^ 2) = 1000 := by
    rw [show ((1000 : ℝ) - 0) ^ 2 + (0 - 0) ^ 2 + (0 - 0) ^ 2 = 1000 ^ 2 by norm_num]
    exact Real.sqrt_sq (by norm_num)
  have key : calculate_init_translation ((0 : ℝ), (0 : ℝ), (100 : ℝ))
      (0, 0, 0) (1000, 0, 0) 10 = (0, 0, -109) := by
    unfold calculate_init_translation euclideanNorm vsub vadd vneg
    rw [hs, min_eq_right (by norm_num)]
    norm_num
  refine ⟨key, ?_⟩
  rw [key]
  rw [show ((0 : ℝ), (0 : ℝ), (-109 : ℝ)).2.2 = (-109 : ℝ) from rfl,
    abs_of_nonpos (by norm_num)]
  norm_num

/-- C5 (amended): `calculate_init_translation` equals the spec formula
`-(center + (0,0,zoom))` with `zoom = min(euclidean_norm(maxs - mins),
far_plane * 0.9)`, and the ZOOM OFFSET of the z-component — its distance
from `-center.z` — never exceeds `far_plane * 0.9` even when the cloud
diagonal does; the z-component of the result itself additionally carries
`-center.z` and is not bounded by `far_plane * 0.9` (counterexample). -/
theorem C5_init_translation (center mins maxs : Point3D) (fp : ℝ)
    (hfp : 0 < fp) :
    calculate_init_translation center mins maxs fp =
      initial_translation_spec center mins maxs fp ∧
    |(calculate_init_translation center mins maxs fp).2.2 + center.2.2| ≤
      fp * 0.9 := by
  constructor
  · rfl
  · have hz : (calculate_init_translation center mins maxs fp).2.2 =
        -(center.2.2 + min (euclideanNorm (vsub maxs mins)) (fp * 0.9)) := rfl
    rw [hz, show -(center.2.2 + min (euclideanNorm (vsub maxs mins)) (fp * 0.9)) +
        center.2.2 = -(min (euclideanNorm (vsub maxs mins)) (fp * 0.9)) by ring]
    have h0 : (0 : ℝ) ≤ euclideanNorm (vsub maxs mins) := Real.sqrt_nonneg _
    rw [abs_neg, abs_of_nonneg (le_min h0 (by positivity))]
    exact min_le_right _ _

/-- Witness for C5 (amended) at the spec's own test instance:
diagonal 1000, far_plane 10, zoom clamps to 9. -/
theorem C5_witness :
    (0 : ℝ) < 10 ∧
    (calculate_init_translation (0, 0, 0) (0, 0, 0) (1000, 0, 0) 10 =
       initial_translation_spec (0, 0, 0) (0, 0, 0) (1000, 0, 0) 10 ∧
     |(calculate_init_translation (0, 0, 0) (0, 0, 0) (1000, 0, 0) 10).2.2 +
         ((0 : ℝ), (0 : ℝ), (0 : ℝ)).2.2| ≤ 10 * 0.9) :=
  ⟨by norm_num,
    C5_init_translation (0, 0, 0) (0, 0, 0) (1000, 0, 0) 10 (by norm_num)⟩

/-- C8: for every non-empty point set the center computed at construction
is the per-axis arithmetic mean (length times each centroid component
recovers the componentwise sum); the synthetic 4-point cloud
(0,0,0),(2,0,0),(0,2,0),(0,0,2) has centroid (1/2,1/2,1/2); and for zero
points the constructor fails (numpy raises on the empty reduction), so the
empty case is a precondition violation of the caller. -/
theorem C8_centroid (pts : List Point3D) (h : pts ≠ []) :
    ((pts.length : ℝ) * (centroid pts).1 = (pts.map fun p => p.1).sum ∧
     (pts.length : ℝ) * (centroid pts).2.1 = (pts.map fun p => p.2.1).sum ∧
     (pts.length : ℝ) * (centroid pts).2.2 = (pts.map fun p => p.2.2).sum) ∧
    centroid [((0 : ℝ), (0 : ℝ), (0 : ℝ)), (2, 0, 0), (0, 2, 0), (0, 0, 2)] =
      (1 / 2, 1 / 2, 1 / 2) ∧
    (∀ cfg ldef c sl it ir, mkPointCloud cfg [] ldef c sl it ir =
      .error "ValueError: zero-size array to reduction operation minimum") := by
  have hn : (pts.length : ℝ) ≠ 0 := by
    have hlen : pts.length ≠ 0 := fun hl => h (List.length_eq_zero.mp hl)
    exact_mod_cast hlen
  refine ⟨⟨?_, ?_, ?_⟩, ?_, fun cfg ldef c sl it ir => rfl⟩
  · rw [show (centroid pts).1 = (pts.map fun p => p.1).sum / pts.length from rfl]
    rw [mul_comm]
    exact div_mul_cancel₀ _ hn
  · rw [show (centroid pts).2.1 = (pts.map fun p => p.2.1).sum / pts.length from rfl]
    rw [mul_comm]
    exact div_mul_cancel₀ _ hn
  · rw [show (centroid pts).2.2 = (pts.map fun p => p.2.2).sum / pts.length from rfl]
    rw [mul_comm]
    exact div_mul_cancel₀ _ hn
  · unfold centroid
    norm_num

/-- Witness for C8 at the spec's synthetic 4-point cloud. -/
theorem C8_witness :
    ([((0 : ℝ), (0 : ℝ), (0 : ℝ)), (2, 0, 0), (0, 2, 0), (0, 0, 2)] :
      List Point3D) ≠ [] ∧
    centroid [((0 : ℝ), (0 : ℝ), (0 : ℝ)), (2, 0, 0), (0, 2, 0), (0, 0, 2)] =
      (1 / 2, 1 / 2, 1 / 2) :=
  ⟨by simp,
    (C8_centroid [((0 : ℝ), (0 : ℝ), (0 : ℝ)), (2, 0, 0), (0, 2, 0), (0, 0, 2)]
      (by simp)).2.1⟩

theorem isEmpty_false_of_ne_nil {pts : List Point3D} (hp : pts ≠ []) :
    pts.isEmpty = false := by
  cases pts with
  | nil => exact absurd rfl hp
  | cons a l => rfl

theorem mkPointCloud_succeeds (cfg : Config) (pts : List Point3D)
    (ldef : List (String × ℤ)) (c : Option (List Color))
    (sl : Option (List ℤ)) (it ir : Option Point3D) (hp : pts ≠ []) :
    ∃ pc, mkPointCloud cfg pts ldef c sl it ir = .ok pc := by
  unfold mkPointCloud
  rw [isEmpty_false_of_ne_nil hp]
  exact ⟨_, rfl⟩

theorem mkPointCloud_ok_fields (cfg : Config) (pts : List Point3D)
    (ldef : List (String × ℤ)) (c : Option (List Color))
    (sl : Option (List ℤ)) (it ir : Option Point3D) (pc : PCState)
    (h : mkPointCloud cfg pts ldef c sl it ir = .ok pc) :
    pts ≠ [] ∧ pc.points = pts ∧ pc.colors = some (mkColors cfg pts c) := by
  unfold mkPointCloud at h
  by_cases hpe : pts.isEmpty
  · rw [if_pos hpe] at h
    exact Except.noConfusion h
  · rw [if_neg hpe] at h
    have hp : pts ≠ [] := by
      intro hnil
      rw [hnil] at hpe
      exact hpe rfl
    simp only [Except.ok.injEq] at h
    subst h
    exact ⟨hp, rfl, rfl⟩

theorem mkColors_kept (cfg : Config) (pts : List Point3D) (cs0 : List Color)
    (h : cs0 ≠ []) : mkColors cfg pts (some cs0) = cs0 := by
  have h1 : keptColors (some cs0) = some cs0 := by
    show (if 0 < cs0.length then some cs0 else none) = some cs0
    rw [if_pos (List.length_pos.mpr h)]
  unfold mkColors
  rw [h1]

theorem mkColors_length_absent (cfg : Config) (pts : List Point3D)
    (c : Option (List Color)) (h : c = none ∨ c = some []) :
    (mkColors cfg pts c).length = pts.length := by
  have h1 : keptColors c = none := by
    rcases h with rfl | rfl
    · rfl
    · rfl
  unfold mkColors
  rw [h1]
  show (if cfg.colorless_colorize then
      colorize_points_with_height pts (amin pts).2.2 (amax pts).2.2
    else pts.map fun _ => cfg.colorless_color).length = pts.length
  by_cases hcc : cfg.colorless_colorize
  · rw [if_pos hcc]
    simp [colorize_points_with_height]
  · rw [if_neg hcc]
    simp

theorem mkColors_ne_nil (cfg : Config) (pts : List Point3D)
    (c : Option (List Color)) (hp : pts ≠ []) : mkColors cfg pts c ≠ [] := by
  cases c with
  | none =>
      intro hnil
      have := mkColors_length_absent cfg pts none (Or.inl rfl)
      rw [hnil] at this
      exact hp (List.length_eq_zero.mp this.symm)
  | some cs0 =>
      by_cases hl : cs0 = []
      · subst hl
        intro hnil
        have := mkColors_length_absent cfg pts (some []) (Or.inr rfl)
        rw [hnil] at this
        exact hp (List.length_eq_zero.mp this.symm)
      · rw [mkColors_kept cfg pts cs0 hl]
        exact hl

/-- C2 is refuted: `__init__` performs no shape validation.  A cloud with
two points and a single color constructs successfully — no ShapeMismatch
error exists anywhere in the constructor — and the mismatched color array
is stored unchanged. -/
theorem C2_counterexample :
    (mkPointCloud cfgDefault [((0 : ℝ), 0, 0), (1, 1, 1)] [("a", 0)]
        (some [((1 : ℝ), 0, 0)]) none (some (0, 0, 0)) (some (0, 0, 0))).map
      (fun pc => (pc.points.length, pc.colors)) =
    .ok (2, some [((1 : ℝ), 0, 0)]) := rfl

/-- C2 (amended): construction never validates the colors length: for any
non-empty point list and any non-empty colors array — matching length or
not — the constructor succeeds and stores the supplied colors unchanged
(the mismatch is merely highlighted in the diagnostics printout). -/
theorem C2_no_shape_validation (cfg : Config) (pts : List Point3D)
    (ldef : List (String × ℤ)) (cols : List Color)
    (sl : Option (List ℤ)) (it ir : Option Point3D)
    (hp : pts ≠ []) (hc : cols ≠ []) :
    ∃ pc, mkPointCloud cfg pts ldef (some cols) sl it ir = .ok pc ∧
      pc.colors = some cols := by
  obtain ⟨pc, hpc⟩ := mkPointCloud_succeeds cfg pts ldef (some cols) sl it ir hp
  refine ⟨pc, hpc, ?_⟩
  have hf := (mkPointCloud_ok_fields cfg pts ldef (some cols) sl it ir pc hpc).2.2
  rw [hf, mkColors_kept cfg pts cols hc]

/-- Witness for C2 (amended): two points, one color. -/
theorem C2_witness :
    ([((0 : ℝ), 0, 0), (1, 1, 1)] : List Point3D) ≠ [] ∧
    ∃ pc, mkPointCloud cfgDefault [((0 : ℝ), 0, 0), (1, 1, 1)] [("a", 0)]
        (some [((1 : ℝ), 0, 0)]) none (some (0, 0, 0)) (some (0, 0, 0)) =
      .ok pc ∧ pc.colors = some [((1 : ℝ), 0, 0)] :=
  ⟨by simp,
    C2_no_shape_validation cfgDefault [((0 : ℝ), 0, 0), (1, 1, 1)] [("a", 0)]
      [((1 : ℝ), 0, 0)] none (some (0, 0, 0)) (some (0, 0, 0))
      (by simp) (by simp)⟩

/-- C10 is refuted in its universally quantified form: when a non-empty
colors array of the wrong length is supplied, the constructor stores it
as-is instead of populating one RGB triple per point — two points end up
with a single color row. -/
theorem C10_counterexample :
    (mkPointCloud cfgDefault [((0 : ℝ), 0, 0), (1, 1, 1)] [("a", 0)]
        (some [((1 : ℝ), 0, 0)]) none (some (0, 0, 0)) (some (0, 0, 0))).map
      (fun pc => (pc.colors, pc.get_no_of_points)) =
    .ok (some [((1 : ℝ), 0, 0)], 2) ∧
    ([((1 : ℝ), 0, 0)] : List Color).length ≠ 2 :=
  ⟨rfl, by norm_num⟩

/-- C10 (amended): a constructed cloud is never colorless — the
constructor always stores a colors array, so the `colorless` predicate is
false after construction; when the input colors were absent or empty (both
treated as absent) the stored colors carry exactly one RGB triple per
point (height ramp or broadcast flat color); a supplied non-empty colors
array is kept as-is, even with mismatched length. -/
theorem C10_never_colorless (cfg : Config) (pts : List Point3D)
    (ldef : List (String × ℤ)) (c : Option (List Color))
    (sl : Option (List ℤ)) (it ir : Option Point3D) (pc : PCState)
    (h : mkPointCloud cfg pts ldef c sl it ir = .ok pc) :
    (∃ cs, pc.colors = some cs ∧ cs ≠ []) ∧ pc.colorless = false ∧
    ((c = none ∨ c = some []) →
      ∃ cs, pc.colors = some cs ∧ cs.length = pts.length) ∧
    (∀ cs0, c = some cs0 → cs0 ≠ [] → pc.colors = some cs0) := by
  obtain ⟨hp, hpts, hcol⟩ := mkPointCloud_ok_fields cfg pts ldef c sl it ir pc h
  refine ⟨⟨mkColors cfg pts c, hcol, mkColors_ne_nil cfg pts c hp⟩, ?_, ?_, ?_⟩
  · rw [PCState.colorless, hcol]
    rfl
  · intro habs
    exact ⟨mkColors cfg pts c, hcol, mkColors_length_absent cfg pts c habs⟩
  · intro cs0 hc0 hne
    rw [hcol, hc0, mkColors_kept cfg pts cs0 hne]

/-- Witness for C10 (amended): a colorless one-point cloud gets the flat
fallback color and is not colorless afterwards. -/
theorem C10_witness :
    (mkPointCloud cfgDefault [((0 : ℝ), 0, 0)] [] none none (some (0, 0, 0))
        (some (0, 0, 0))).map PCState.colorless = .ok false := by
  obtain ⟨pc, hE⟩ : ∃ pc, mkPointCloud cfgDefault [((0 : ℝ), 0, 0)] [] none none
      (some (0, 0, 0)) (some (0, 0, 0)) = .ok pc := ⟨_, rfl⟩
  have h := (C10_never_colorless cfgDefault [((0 : ℝ), 0, 0)] [] none none
    (some (0, 0, 0)) (some (0, 0, 0)) pc hE).2.1
  rw [hE]
  simp [Except.map, h]

/-- C9: on a constructed cloud, `get_no_of_colors` does not return the
color count: whenever the colors array holds more than one point its numpy
size `3 N` exceeds one, so using it as a boolean raises the ambiguous-
truth-value `ValueError`; and an `ok 0` result would force the colors to
be absent, which never holds after construction. -/
theorem C9_get_no_of_colors (cfg : Config) (pts : List Point3D)
    (ldef : List (String × ℤ)) (c : Option (List Color))
    (sl : Option (List ℤ)) (it ir : Option Point3D) (pc : PCState)
    (h : mkPointCloud cfg pts ldef c sl it ir = .ok pc) :
    (∀ cs, pc.colors = some cs → 1 < cs.length →
      pc.get_no_of_colors = .error ambiguousTruthMsg) ∧
    (∀ k, pc.get_no_of_colors = .ok k → pc.colors = none) := by
  obtain ⟨hp, hpts, hcol⟩ := mkPointCloud_ok_fields cfg pts ldef c sl it ir pc h
  constructor
  · intro cs hcs hlen
    unfold PCState.get_no_of_colors
    rw [hcs]
    show (if 1 < 3 * cs.length then (.error ambiguousTruthMsg : Except String ℕ)
      else .ok 0) = .error ambiguousTruthMsg
    rw [if_pos (by omega)]
  · intro k hk
    unfold PCState.get_no_of_colors at hk
    rw [hcol] at hk
    have hlen : 0 < (mkColors cfg pts c).length :=
      List.length_pos.mpr (mkColors_ne_nil cfg pts c hp)
    rw [show (match some (mkColors cfg pts c) with
        | none => (.ok 0 : Except String ℕ)
        | some cs => if 1 < 3 * cs.length then .error ambiguousTruthMsg
          else .ok 0) =
      (if 1 < 3 * (mkColors cfg pts c).length then
        (.error ambiguousTruthMsg : Except String ℕ) else .ok 0) from rfl,
      if_pos (by omega : 1 < 3 * (mkColors cfg pts c).length)] at hk
    exact Except.noConfusion hk

/-- Witness for C9: a freshly constructed two-point cloud (two color rows)
raises on `get_no_of_colors`. -/
theorem C9_witness :
    (mkPointCloud cfgDefault [((0 : ℝ), 0, 0), (1, 1, 1)] [] none none
        (some (0, 0, 0)) (some (0, 0, 0))).map
      (fun pc => pc.get_no_of_colors) =
    .ok (.error ambiguousTruthMsg) := by
  obtain ⟨pc, hE⟩ : ∃ pc, mkPointCloud cfgDefault [((0 : ℝ), 0, 0), (1, 1, 1)] []
      none none (some (0, 0, 0)) (some (0, 0, 0)) = .ok pc := ⟨_, rfl⟩
  have hcol := (mkPointCloud_ok_fields cfgDefault [((0 : ℝ), 0, 0), (1, 1, 1)] []
    none none (some (0, 0, 0)) (some (0, 0, 0)) pc hE).2.2
  have h := (C9_get_no_of_colors cfgDefault [((0 : ℝ), 0, 0), (1, 1, 1)] [] none
    none (some (0, 0, 0)) (some (0, 0, 0)) pc hE).1
    (mkColors cfgDefault [((0 : ℝ), 0, 0), (1, 1, 1)] none) hcol
    (by rw [mkColors_length_absent cfgDefault [((0 : ℝ), 0, 0), (1, 1, 1)] none
          (Or.inl rfl)]
        norm_num)
  rw [hE]
  simp [Except.map, h]

theorem npIndex_none_iff (n : ℕ) (v : ℤ) :
    npIndex n v = none ↔ v < -(n : ℤ) ∨ (n : ℤ) ≤ v := by
  unfold npIndex
  split_ifs with h1 h2
  · simp only [reduceCtorEq, false_iff]
    omega
  · simp only [reduceCtorEq, false_iff]
    omega
  · simp only [true_iff]
    omega

theorem npEyeIndex_ok_of_range (n : ℕ) (ls : List ℤ)
    (h : ∀ v ∈ ls, 0 ≤ v ∧ v < (n : ℤ)) :
    npEyeIndex n ls = .ok (ls.map Int.toNat) := by
  induction ls with
  | nil => rfl
  | cons v vs ih =>
      have hv := h v (List.mem_cons_self v vs)
      have hnv : npIndex n v = some v.toNat := by
        unfold npIndex
        rw [if_pos hv]
      simp only [npEyeIndex, hnv, List.map_cons]
      rw [ih fun u hu => h u (List.mem_cons_of_mem v hu)]
      rfl

theorem npEyeIndex_ok_or_error (n : ℕ) (ls : List ℤ) :
    (∃ ks, npEyeIndex n ls = .ok ks ∧ ks.length = ls.length ∧
      ∀ v ∈ ls, npIndex n v ≠ none) ∨
    (npEyeIndex n ls = .error "IndexError: index is out of bounds for axis 0" ∧
      ∃ v ∈ ls, npIndex n v = none) := by
  induction ls with
  | nil => exact Or.inl ⟨[], rfl, rfl, by simp⟩
  | cons v vs ih =>
      cases hnv : npIndex n v with
      | none =>
          refine Or.inr ⟨?_, v, List.mem_cons_self v vs, hnv⟩
          simp only [npEyeIndex, hnv]
      | some k =>
          rcases ih with ⟨ks, hok, hlen, hall⟩ | ⟨herr, w, hw, hwnone⟩
          · refine Or.inl ⟨k :: ks, ?_, by simp [hlen], ?_⟩
            · simp only [npEyeIndex, hnv, hok, Except.map]
            · intro u hu
              rcases List.mem_cons.mp hu with rfl | hu2
              · rw [hnv]
                exact fun hh => Option.noConfusion hh
              · exact hall u hu2
          · refine Or.inr ⟨?_, w, List.mem_cons_of_mem v hw, hwnone⟩
            simp only [npEyeIndex, hnv, herr, Except.map]

theorem npBroadcastAdd_eq_len (xs ys : List Color) (h : xs.length = ys.length) :
    npBroadcastAdd xs ys = .ok (List.zipWith vadd xs ys) := by
  unfold npBroadcastAdd
  rw [if_pos h]

theorem blendImpl_ok_eval (n : ℕ) (pal : List Color) (mix : ℝ)
    (cs : List Color) (ls : List ℤ) (ks : List ℕ)
    (hks : npEyeIndex n ls = .ok ks) (hpn : pal.length = n)
    (hkl : ks.length = ls.length) (hlen : ls.length = cs.length) :
    blendImpl n (some pal) mix (some cs) ls =
      .ok (List.zipWith vadd ((pickRows pal ks).map fun r => colScale r mix)
        (cs.map fun c => colScale c (1 - mix))) := by
  unfold blendImpl
  rw [hks]
  simp only [Except.bind]
  rw [if_pos hpn]
  exact npBroadcastAdd_eq_len _ _ (by simp [pickRows, hkl, hlen])

theorem label_colors_present (pc : PCState) (ls : List ℤ) (cs pal : List Color)
    (hl : pc.labels = some ls) (hc : pc.colors = some cs)
    (hpal : pc.label_color_map = some pal) :
    pc.label_colors =
      (blendImpl pc.label_definition.length (some pal) pc.mix_ratio
        (some cs) ls).map some := by
  unfold PCState.label_colors
  rw [hl, hpal, hc]

theorem zipWith_const_right {α β : Type} (ls : List α) (cs : List β)
    (h : ls.length = cs.length) :
    List.zipWith (fun _ c => c) ls cs = cs := by
  induction ls generalizing cs with
  | nil =>
      cases cs with
      | nil => rfl
      | cons c cs => simp at h
  | cons a as ih =>
      cases cs with
      | nil => simp at h
      | cons c cs =>
          simp only [List.zipWith_cons_cons]
          rw [ih cs (by simpa using h)]

theorem zipWith_const_left {α β γ : Type} (F : α → γ) (ls : List α)
    (cs : List β) (h : ls.length = cs.length) :
    List.zipWith (fun v _ => F v) ls cs = ls.map F := by
  induction ls generalizing cs with
  | nil =>
      cases cs with
      | nil => rfl
      | cons c cs => simp at h
  | cons a as ih =>
      cases cs with
      | nil => simp at h
      | cons c cs =>
          simp only [List.zipWith_cons_cons, List.map_cons]
          rw [ih cs (by simpa using h)]

/-- C3: with labels present and in palette range, `label_colors` is the
spec blend `mix_ratio * label_color_map[labels[i]] + (1 - mix_ratio) *
base_colors[i]` per point; `mix_ratio = 0` reproduces the base colors
exactly and `mix_ratio = 1` the pure per-point label colors; with labels
absent the result is the base colors unchanged. -/
theorem C3_label_colors_blend (pc : PCState) (ls : List ℤ) (cs pal : List Color)
    (hl : pc.labels = some ls) (hc : pc.colors = some cs)
    (hpal : pc.label_color_map = some pal)
    (hpn : pal.length = pc.label_definition.length)
    (hlen : ls.length = cs.length)
    (hrange : ∀ v ∈ ls, 0 ≤ v ∧ v < (pc.label_definition.length : ℤ)) :
    pc.label_colors = .ok (some (blendSpec pc.mix_ratio pal ls cs)) ∧
    (pc.mix_ratio = 0 → pc.label_colors = .ok (some cs)) ∧
    (pc.mix_ratio = 1 →
      pc.label_colors = .ok (some (ls.map fun v => pal.getD v.toNat (0, 0, 0)))) ∧
    (∀ q : PCState, q.labels = none → q.label_colors = .ok q.colors) := by
  have hks := npEyeIndex_ok_of_range pc.label_definition.length ls hrange
  have heval := blendImpl_ok_eval pc.label_definition.length pal pc.mix_ratio
    cs ls (ls.map Int.toNat) hks hpn (by simp) hlen
  have hzip : List.zipWith vadd
      ((pickRows pal (ls.map Int.toNat)).map fun r => colScale r pc.mix_ratio)
      (cs.map fun c => colScale c (1 - pc.mix_ratio)) =
      blendSpec pc.mix_ratio pal ls cs := by
    unfold pickRows blendSpec
    rw [List.map_map, List.map_map, List.zipWith_map]
    have hfun : (fun (v : ℤ) (c : Color) =>
        vadd ((((fun r => colScale r pc.mix_ratio) ∘
          fun k => pal.getD k (0, 0, 0)) ∘ Int.toNat) v)
          (colScale c (1 - pc.mix_ratio))) =
        fun (v : ℤ) (c : Color) =>
          vadd (smulColor pc.mix_ratio (pal.getD v.toNat (0, 0, 0)))
            (smulColor (1 - pc.mix_ratio) c) := by
      funext v c
      show vadd (colScale (pal.getD v.toNat (0, 0, 0)) pc.mix_ratio)
          (colScale c (1 - pc.mix_ratio)) =
        vadd (smulColor pc.mix_ratio (pal.getD v.toNat (0, 0, 0)))
          (smulColor (1 - pc.mix_ratio) c)
      unfold vadd colScale smulColor
      simp [mul_comm]
    rw [hfun]
  have hmain : pc.label_colors = .ok (some (blendSpec pc.mix_ratio pal ls cs)) := by
    rw [label_colors_present pc ls cs pal hl hc hpal, heval, hzip]
    rfl
  refine ⟨hmain, ?_, ?_, ?_⟩
  · intro h0
    rw [hmain, h0]
    have : blendSpec 0 pal ls cs = cs := by
      unfold blendSpec
      have hfun : (fun (v : ℤ) (c : Color) =>
          vadd (smulColor 0 (pal.getD v.toNat (0, 0, 0))) (smulColor (1 - 0) c)) =
          fun _ c => c := by
        funext v c
        unfold vadd smulColor
        simp
      rw [hfun, zipWith_const_right ls cs hlen]
    rw [this]
  · intro h1
    rw [hmain, h1]
    have : blendSpec 1 pal ls cs = ls.map fun v => pal.getD v.toNat (0, 0, 0) := by
      unfold blendSpec
      have hfun : (fun (v : ℤ) (c : Color) =>
          vadd (smulColor 1 (pal.getD v.toNat (0, 0, 0))) (smulColor (1 - 1) c)) =
          fun v _ => pal.getD v.toNat (0, 0, 0) := by
        funext v c
        unfold vadd smulColor
        simp
      rw [hfun, zipWith_const_left _ ls cs hlen]
    rw [this]
  · intro q hq
    unfold PCState.label_colors
    rw [hq]

/-- Witness for C3 on a two-class, two-point cloud with mix ratio 1/2. -/
theorem C3_witness :
    (segState [("a", 0), ("b", 1)] [0, 1] [((0 : ℝ), 0, 1), ((0 : ℝ), 0, 1)]
        [((1 : ℝ), 0, 0), ((0 : ℝ), 1, 0)] (1 / 2)).label_colors =
      .ok (some (blendSpec (1 / 2) [((1 : ℝ), 0, 0), ((0 : ℝ), 1, 0)] [0, 1]
        [((0 : ℝ), 0, 1), ((0 : ℝ), 0, 1)])) :=
  (C3_label_colors_blend
    (segState [("a", 0), ("b", 1)] [0, 1] [((0 : ℝ), 0, 1), ((0 : ℝ), 0, 1)]
      [((1 : ℝ), 0, 0), ((0 : ℝ), 1, 0)] (1 / 2))
    [0, 1] [((0 : ℝ), 0, 1), ((0 : ℝ), 0, 1)]
    [((1 : ℝ), 0, 0), ((0 : ℝ), 1, 0)]
    rfl rfl rfl rfl rfl (by decide)).1

/-- C7 is refuted as stated: a label value with no entry in the label
definition does not necessarily fail at blend time.  With one class
`{"a": 0}` the label value -1 has no entry, yet `np.eye(1)[[-1]]` wraps
around numpy-style and the blend succeeds, returning the last palette row
blended with the base color. -/
theorem C7_counterexample :
    (segState [("a", 0)] [-1] [((0 : ℝ), 0, 0)] [((1 : ℝ), 0, 0)]
        (1 / 2)).label_definition = [("a", 0)] ∧
    (segState [("a", 0)] [-1] [((0 : ℝ), 0, 0)] [((1 : ℝ), 0, 0)]
        (1 / 2)).labels = some [-1] ∧
    (segState [("a", 0)] [-1] [((0 : ℝ), 0, 0)] [((1 : ℝ), 0, 0)]
        (1 / 2)).label_colors = .ok (some [((1 / 2 : ℝ), 0, 0)]) := by
  refine ⟨rfl, rfl, ?_⟩
  have hnv : npIndex 1 (-1) = some 0 := by decide
  have hks : npEyeIndex 1 [-1] = .ok [0] := by
    simp only [npEyeIndex, hnv, Except.map]
  have heval := blendImpl_ok_eval 1 [((1 : ℝ), 0, 0)] (1 / 2) [((0 : ℝ), 0, 0)]
    [-1] [0] hks rfl rfl rfl
  rw [label_colors_present _ [-1] [((0 : ℝ), 0, 0)] [((1 : ℝ), 0, 0)] rfl rfl rfl,
    show (segState [("a", 0)] [-1] [((0 : ℝ), 0, 0)] [((1 : ℝ), 0, 0)]
      (1 / 2)).label_definition.length = 1 from rfl,
    show (segState [("a", 0)] [-1] [((0 : ℝ), 0, 0)] [((1 : ℝ), 0, 0)]
      (1 / 2)).mix_ratio = (1 / 2 : ℝ) from rfl,
    heval]
  show Except.ok (some [vadd (colScale ((1 : ℝ), 0, 0) (1 / 2))
    (colScale ((0 : ℝ), 0, 0) (1 - 1 / 2))]) = _
  unfold vadd colScale
  norm_num

/-- C7 (amended): with labels, base colors and palette present and
well-formed, the blend fails — with numpy's IndexError — exactly when some
label value lies outside `[-n, n)` where `n` is the class count: values
`≥ n` or `< -n` fail, while negative values in `[-n, -1]` wrap around
Python-style and succeed even though they have no entry in the label
definition. -/
theorem C7_blend_error_iff (pc : PCState) (ls : List ℤ) (cs pal : List Color)
    (hl : pc.labels = some ls) (hc : pc.colors = some cs)
    (hpal : pc.label_color_map = some pal)
    (hpn : pal.length = pc.label_definition.length)
    (hlen : ls.length = cs.length) :
    pc.label_colors = .error "IndexError: index is out of bounds for axis 0" ↔
      ∃ v ∈ ls, v < -(pc.label_definition.length : ℤ) ∨
        (pc.label_definition.length : ℤ) ≤ v := by
  have hpres := label_colors_present pc ls cs pal hl hc hpal
  rcases npEyeIndex_ok_or_error pc.label_definition.length ls with
    ⟨ks, hok, hkl, hall⟩ | ⟨herr, w, hw, hwnone⟩
  · have heval := blendImpl_ok_eval pc.label_definition.length pal pc.mix_ratio
      cs ls ks hok hpn hkl hlen
    rw [hpres, heval]
    constructor
    · intro hcontra
      exact Except.noConfusion hcontra
    · intro ⟨v, hv, hbad⟩
      exact absurd ((npIndex_none_iff pc.label_definition.length v).mpr hbad)
        (hall v hv)
  · have hblend : blendImpl pc.label_definition.length (some pal) pc.mix_ratio
        (some cs) ls = .error "IndexError: index is out of bounds for axis 0" := by
      unfold blendImpl
      rw [herr]
      rfl
    rw [hpres, hblend]
    constructor
    · intro _
      exact ⟨w, hw, (npIndex_none_iff pc.label_definition.length w).mp hwnone⟩
    · intro _
      rfl

/-- Witness for C7 (amended): label value 5 with one class fails with
IndexError. -/
theorem C7_witness :
    (segState [("a", 0)] [5] [((0 : ℝ), 0, 0)] [((1 : ℝ), 0, 0)]
        (1 / 2)).label_colors =
      .error "IndexError: index is out of bounds for axis 0" :=
  (C7_blend_error_iff
    (segState [("a", 0)] [5] [((0 : ℝ), 0, 0)] [((1 : ℝ), 0, 0)] (1 / 2))
    [5] [((0 : ℝ), 0, 0)] [((1 : ℝ), 0, 0)]
    rfl rfl rfl rfl rfl).mpr ⟨5, by simp, by decide⟩

theorem find?_snd_eq (l : List (String × ℤ)) (nm : String) (i : ℤ)
    (hnd : (l.map Prod.snd).Nodup) (hmem : (nm, i) ∈ l) :
    l.find? (fun p => p.2 == i) = some (nm, i) := by
  induction l with
  | nil => simp at hmem
  | cons q rest ih =>
      have hnd' : q.2 ∉ rest.map Prod.snd ∧ (rest.map Prod.snd).Nodup := by
        rw [List.map_cons, List.nodup_cons] at hnd
        exact hnd
      by_cases hq : q.2 = i
      · have hqe : q = (nm, i) := by
          rcases List.mem_cons.mp hmem with h | h
          · exact h.symm
          · exfalso
            have hmm : i ∈ rest.map Prod.snd := List.mem_map.mpr ⟨(nm, i), h, rfl⟩
            rw [← hq] at hmm
            exact hnd'.1 hmm
        rw [List.find?_cons_of_pos _ (by simp [hq]), hqe]
      · have hmem2 : (nm, i) ∈ rest := by
          rcases List.mem_cons.mp hmem with h | h
          · exact absurd (by rw [← h]) hq
          · exact h
        rw [List.find?_cons_of_neg _ (by simp [hq])]
        exact ih hnd'.2 hmem2

theorem int2label_eq (ldef : List (String × ℤ)) (nm : String) (i : ℤ)
    (hinds : (ldef.map Prod.snd).Nodup) (hmem : (nm, i) ∈ ldef) :
    int2label ldef i = some nm := by
  unfold int2label
  have hnd : (ldef.reverse.map Prod.snd).Nodup := by
    rw [List.map_reverse]
    exact List.nodup_reverse.mpr hinds
  rw [find?_snd_eq ldef.reverse nm i hnd (List.mem_reverse.mpr hmem)]
  rfl

theorem dictSet_mapped (ldef : List (String × ℤ)) (f : ℤ → ℕ) (nm : String)
    (i : ℤ) (c : ℕ) (hnames : (ldef.map Prod.fst).Nodup)
    (hinds : (ldef.map Prod.snd).Nodup) (hmem : (nm, i) ∈ ldef) :
    dictSet (ldef.map fun p => (p.1, f p.2)) nm c =
      ldef.map fun p => (p.1, if p.2 = i then c else f p.2) := by
  have hany : ((ldef.map fun p => (p.1, f p.2)).any fun p => p.1 == nm) = true := by
    rw [List.any_eq_true]
    exact ⟨(nm, f i), List.mem_map.mpr ⟨(nm, i), hmem, rfl⟩, by simp⟩
  unfold dictSet
  rw [if_pos hany, List.map_map]
  apply List.map_congr_left
  intro p hp
  simp only [Function.comp_apply]
  by_cases hpi : p.2 = i
  · have hpeq : p = (nm, i) := List.inj_on_of_nodup_map hinds hp hmem hpi
    rw [hpeq]
    simp
  · have hpn : p.1 ≠ nm := by
      intro hcontra
      have hpeq : p = (nm, i) := List.inj_on_of_nodup_map hnames hp hmem hcontra
      rw [hpeq] at hpi
      exact hpi rfl
    simp [hpn, hpi]

theorem applyCounts_eval (ldef : List (String × ℤ))
    (hnames : (ldef.map Prod.fst).Nodup) (hinds : (ldef.map Prod.snd).Nodup)
    (us : List (ℤ × ℕ)) (hus : ∀ u ∈ us, u.1 ∈ ldef.map Prod.snd)
    (f : ℤ → ℕ) :
    applyCounts (ldef.map fun p => (p.1, f p.2)) ldef us =
      .ok (ldef.map fun p => (p.1, updList f us p.2)) := by
  induction us generalizing f with
  | nil => rfl
  | cons u rest ih =>
      obtain ⟨p0, hp0, hp0u⟩ :=
        List.mem_map.mp (hus u (List.mem_cons_self u rest))
      have hmem0 : (p0.1, u.1) ∈ ldef := by
        rw [← hp0u]
        exact hp0
      have hint : int2label ldef u.1 = some p0.1 :=
        int2label_eq ldef p0.1 u.1 hinds hmem0
      simp only [applyCounts, hint]
      rw [dictSet_mapped ldef f p0.1 u.1 u.2 hnames hinds hmem0]
      simp only [updList]
      exact ih (fun u2 hu2 => hus u2 (List.mem_cons_of_mem u hu2))
        (fun j => if j = u.1 then u.2 else f j)

theorem updList_not_mem (f : ℤ → ℕ) (us : List (ℤ × ℕ)) (i : ℤ)
    (h : i ∉ us.map Prod.fst) : updList f us i = f i := by
  induction us generalizing f with
  | nil => rfl
  | cons u rest ih =>
      rw [List.map_cons] at h
      have h1 : i ≠ u.1 := fun hc => h (by rw [hc]; exact List.mem_cons_self _ _)
      have h2 : i ∉ rest.map Prod.fst := fun hc => h (List.mem_cons_of_mem _ hc)
      simp only [updList]
      rw [ih (fun j => if j = u.1 then u.2 else f j) h2]
      rw [if_neg h1]

theorem updList_mem (f : ℤ → ℕ) (us : List (ℤ × ℕ)) (i : ℤ) (c : ℕ)
    (hnd : (us.map Prod.fst).Nodup) (hmem : (i, c) ∈ us) :
    updList f us i = c := by
  induction us generalizing f with
  | nil => simp at hmem
  | cons u rest ih =>
      rw [List.map_cons, List.nodup_cons] at hnd
      rcases List.mem_cons.mp hmem with heq | hmem2
      · have h1 : u.1 = i := by rw [← heq]
        have h2 : u.2 = c := by rw [← heq]
        have hi : i ∉ rest.map Prod.fst := by
          rw [← h1]
          exact hnd.1
        simp only [updList]
        rw [updList_not_mem (fun j => if j = u.1 then u.2 else f j) rest i hi]
        rw [if_pos h1.symm, h2]
      · have _hne : i ≠ u.1 := by
          intro hc
          apply hnd.1
          rw [← hc]
          exact List.mem_map.mpr ⟨(i, c), hmem2, rfl⟩
        simp only [updList]
        exact ih (fun j => if j = u.1 then u.2 else f j) hnd.2 hmem2

theorem mem_insertionSort_dedup (v : ℤ) (ls : List ℤ) :
    v ∈ ls.dedup.insertionSort (· ≤ ·) ↔ v ∈ ls := by
  rw [(List.perm_insertionSort _ _).mem_iff, List.mem_dedup]

theorem npUnique_keys (ls : List ℤ) :
    (npUnique ls).map Prod.fst = ls.dedup.insertionSort (· ≤ ·) := by
  unfold npUnique
  rw [List.map_map]
  exact List.map_id (ls.dedup.insertionSort (· ≤ ·))

theorem npUnique_keys_nodup (ls : List ℤ) :
    ((npUnique ls).map Prod.fst).Nodup := by
  rw [npUnique_keys]
  exact ((List.perm_insertionSort _ _).nodup_iff).mpr (List.nodup_dedup ls)

theorem npUnique_mem (v : ℤ) (ls : List ℤ) (hv : v ∈ ls) :
    (v, ls.count v) ∈ npUnique ls := by
  unfold npUnique
  exact List.mem_map.mpr ⟨v, (mem_insertionSort_dedup v ls).mpr hv, rfl⟩

theorem npUnique_keys_mem (v : ℤ) (ls : List ℤ) :
    v ∈ (npUnique ls).map Prod.fst ↔ v ∈ ls := by
  rw [npUnique_keys]
  exact mem_insertionSort_dedup v ls

theorem updList_npUnique_count (ls : List ℤ) (i : ℤ) :
    updList (fun _ => 0) (npUnique ls) i = ls.count i := by
  by_cases hi : i ∈ ls
  · exact updList_mem (fun _ => 0) (npUnique ls) i (ls.count i)
      (npUnique_keys_nodup ls) (npUnique_mem i ls hi)
  · rw [updList_not_mem (fun _ => 0) (npUnique ls) i
      fun hc => hi ((npUnique_keys_mem i ls).mp hc)]
    exact (List.count_eq_zero.mpr hi).symm

theorem label_counts_impl_eval (ls : List ℤ) (ldef : List (String × ℤ))
    (hne : ldef ≠ []) (hnames : (ldef.map Prod.fst).Nodup)
    (hinds : (ldef.map Prod.snd).Nodup)
    (hdom : ∀ v ∈ ls, v ∈ ldef.map Prod.snd) :
    label_counts_impl (some ls) ldef =
      .ok (some (ldef.map fun p => (p.1, ls.count p.2))) := by
  have hie : ldef.isEmpty = false := by
    cases ldef with
    | nil => exact absurd rfl hne
    | cons a l => rfl
  unfold label_counts_impl
  rw [hie]
  simp only [Bool.false_eq_true, if_false]
  have hus : ∀ u ∈ npUnique ls, u.1 ∈ ldef.map Prod.snd := by
    intro u hu
    obtain ⟨v, hv, rfl⟩ := List.mem_map.mp hu
    exact hdom v ((mem_insertionSort_dedup v ls).mp hv)
  have h0 : (ldef.map fun p => (p.1, 0)) =
      ldef.map fun p => (p.1, (fun _ : ℤ => 0) p.2) := rfl
  rw [h0, applyCounts_eval ldef hnames hinds (npUnique ls) hus (fun _ => 0)]
  have hmc : (ldef.map fun p => (p.1, updList (fun _ => 0) (npUnique ls) p.2)) =
      ldef.map fun p => (p.1, ls.count p.2) :=
    List.map_congr_left fun p _ => by rw [updList_npUnique_count]
  rw [hmc]
  rfl

theorem sum_counts_of_dom (ls inds : List ℤ) (hnd : inds.Nodup)
    (hdom : ∀ v ∈ ls, v ∈ inds) :
    (inds.map fun i => ls.count i).sum = ls.length := by
  have hsub : ls.toFinset ⊆ inds.toFinset := by
    intro v hv
    exact List.mem_toFinset.mpr (hdom v (List.mem_toFinset.mp hv))
  have hzero : ∀ x ∈ inds.toFinset, x ∉ ls.toFinset → ls.count x = 0 := by
    intro x _ hx
    exact List.count_eq_zero.mpr fun hc => hx (List.mem_toFinset.mpr hc)
  calc (inds.map fun i => ls.count i).sum
      = inds.toFinset.sum fun i => ls.count i := (List.sum_toFinset _ hnd).symm
    _ = ls.toFinset.sum fun i => ls.count i := (Finset.sum_subset hsub hzero).symm
    _ = ls.length := List.sum_toFinset_count_eq_length ls

/-- C6: with labels present, every label value a declared class index, and
a well-formed label definition, `label_counts` is a mapping whose keys are
exactly the class names in definition order (classes with zero occurrences
appear with count 0, each class carries the occurrence count of its
index), and the counts sum to the total point count; with segmentation
disabled (labels absent), `label_counts` returns nothing. -/
theorem C6_label_counts (pc : PCState) (ls : List ℤ)
    (hl : pc.labels = some ls)
    (hlen : ls.length = pc.points.length)
    (hne : pc.label_definition ≠ [])
    (hnames : (pc.label_definition.map Prod.fst).Nodup)
    (hinds : (pc.label_definition.map Prod.snd).Nodup)
    (hdom : ∀ v ∈ ls, v ∈ pc.label_definition.map Prod.snd) :
    pc.label_counts =
      .ok (some (pc.label_definition.map fun p => (p.1, ls.count p.2))) ∧
    (pc.label_definition.map fun p => (p.1, ls.count p.2)).map Prod.fst =
      pc.label_definition.map Prod.fst ∧
    ((pc.label_definition.map fun p => (p.1, ls.count p.2)).map Prod.snd).sum =
      pc.points.length ∧
    (∀ q : PCState, q.labels = none → q.label_counts = .ok none) := by
  refine ⟨?_, ?_, ?_, ?_⟩
  · unfold PCState.label_counts
    rw [hl]
    exact label_counts_impl_eval ls pc.label_definition hne hnames hinds hdom
  · rw [List.map_map]
    apply List.map_congr_left
    intro p _
    rfl
  · rw [List.map_map]
    show (pc.label_definition.map fun p => ls.count p.2).sum = pc.points.length
    rw [show (pc.label_definition.map fun p => ls.count p.2) =
        (pc.label_definition.map Prod.snd).map fun i => ls.count i by
      rw [List.map_map]
      rfl]
    rw [sum_counts_of_dom ls (pc.label_definition.map Prod.snd) hinds hdom]
    exact hlen
  · intro q hq
    unfold PCState.label_counts
    rw [hq]
    rfl

/-- Witness for C6: classes a ↦ 0, b ↦ 1 and labels [0, 0, 1] count to
a ↦ 2, b ↦ 1, summing to the 3 points. -/
theorem C6_witness :
    (segState [("a", 0), ("b", 1)] [0, 0, 1]
        [((0 : ℝ), 0, 0), ((0 : ℝ), 0, 0), ((0 : ℝ), 0, 0)] [] 0).label_counts =
      .ok (some [("a", 2), ("b", 1)]) := by
  have h := (C6_label_counts
    (segState [("a", 0), ("b", 1)] [0, 0, 1]
      [((0 : ℝ), 0, 0), ((0 : ℝ), 0, 0), ((0 : ℝ), 0, 0)] [] 0)
    [0, 0, 1] rfl rfl (by decide) (by decide) (by decide) (by decide)).1
  rw [h]
  rfl

end

end LabelCloud
